import Mathlib

/-!
# Verification of the Aurora OS FileStorage service

Shallow embedding of the FileStorage service found in
src/src/services/fileStorage.ts, together with machine-checked proofs of
the specification claims about it.

Modelling conventions:
* Byte sequences are lists of natural numbers (each below 256 where it
  matters).
* The asynchronous Capacitor host calls (Filesystem.writeFile,
  appendFile, copy, getUri, deleteFile and the setTimeout yield) are
  recorded as an explicit trace of events, in the order the source code
  issues them.
* Host-provided nondeterminism (Date.now, Math.random, the platform URI
  returned by getUri, the blob URL minted by URL.createObjectURL, and
  whether each Filesystem.copy attempt succeeds) is passed in as explicit
  parameters.
* Filesystem.writeFile and Filesystem.appendFile are modelled as
  succeeding; the claims under verification only concern the successful
  chunked-write trace.  Filesystem.copy is modelled as fallible because
  the retry logic of saveFile branches on its outcome.
-/

namespace AuroraFS

/-- The 1 MiB threshold for native storage (fileStorage.ts line 21). -/
def FILE_SIZE_THRESHOLD : Nat := 1 * 1024 * 1024

/-- The 1 MiB chunk size used by the chunked write loop (line 128). -/
def chunkSize : Nat := 1024 * 1024

/-! ## Base64

The chunked write path converts every chunk to base64 before handing it
to the native bridge (blobToBase64, lines 161-171, which reads the blob
as a data URL and strips the prefix up to the comma, leaving a standard
padded base64 string).  We model the encoding produced by the host and
its standard decoding. -/

/-- The standard base64 alphabet, in sextet order. -/
def base64AlphabetChars : List Char :=
  "ABCDEFGHIJKLMNOPQRSTUVWXYZabcdefghijklmnopqrstuvwxyz0123456789+/".toList

/-- The base64 character of a sextet value. -/
def sextetChar (n : Nat) : Char := base64AlphabetChars.getD n 'A'

/-- The sextet value of a base64 character. -/
def charSextet (c : Char) : Nat := base64AlphabetChars.indexOf c

/-- Standard base64 encoding of a byte list, with padding, as produced by
FileReader.readAsDataURL after the data-URL prefix is stripped. -/
def base64EncodeList : List Nat → List Char
  | a :: b :: c :: rest =>
      sextetChar (a / 4) ::
      sextetChar ((a % 4) * 16 + b / 16) ::
      sextetChar ((b % 16) * 4 + c / 64) ::
      sextetChar (c % 64) ::
      base64EncodeList rest
  | [a, b] =>
      [sextetChar (a / 4), sextetChar ((a % 4) * 16 + b / 16),
       sextetChar ((b % 16) * 4), '=']
  | [a] =>
      [sextetChar (a / 4), sextetChar ((a % 4) * 16), '=', '=']
  | [] => []

/-- Standard base64 decoding, the inverse performed on the native side of
the bridge. -/
def base64DecodeList : List Char → List Nat
  | c1 :: c2 :: c3 :: c4 :: rest =>
      let s1 := charSextet c1
      let s2 := charSextet c2
      if c3 = '=' then
        [s1 * 4 + s2 / 16]
      else
        let s3 := charSextet c3
        if c4 = '=' then
          [s1 * 4 + s2 / 16, (s2 % 16) * 16 + s3 / 4]
        else
          let s4 := charSextet c4
          (s1 * 4 + s2 / 16) :: ((s2 % 16) * 16 + s3 / 4) ::
            ((s3 % 4) * 64 + s4) :: base64DecodeList rest
  | _ => []

/-- Base64 encoding of a byte list, as the string handed to the bridge. -/
def base64Encode (l : List Nat) : String := String.mk (base64EncodeList l)

/-- Base64 decoding of a bridge payload string. -/
def base64DecodeStr (s : String) : List Nat := base64DecodeList s.toList

theorem charSextet_sextetChar : ∀ n, n < 64 → charSextet (sextetChar n) = n := by
  decide

theorem sextetChar_ne_pad : ∀ n, n < 64 → sextetChar n ≠ '=' := by
  decide

/-- Induction principle following the three-bytes-at-a-time recursion of
the base64 encoder. -/
theorem threeStepInduction {P : List Nat → Prop} (h0 : P []) (h1 : ∀ a, P [a])
    (h2 : ∀ a b, P [a, b])
    (h3 : ∀ a b c rest, P rest → P (a :: b :: c :: rest)) :
    ∀ l, P l
  | [] => h0
  | [a] => h1 a
  | [a, b] => h2 a b
  | a :: b :: c :: rest => h3 a b c rest (threeStepInduction h0 h1 h2 h3 rest)

/-- Decoding inverts encoding on genuine byte lists. -/
theorem base64_roundtrip (l : List Nat) (h : ∀ b ∈ l, b < 256) :
    base64DecodeList (base64EncodeList l) = l := by
  induction l using threeStepInduction with
  | h0 => rfl
  | h1 a =>
      have ha : a < 256 := h a (by simp)
      have h1lt : a / 4 < 64 := by omega
      have h2lt : (a % 4) * 16 < 64 := by omega
      simp only [base64EncodeList, base64DecodeList, if_true]
      rw [charSextet_sextetChar _ h1lt, charSextet_sextetChar _ h2lt]
      simp only [List.cons.injEq, and_true]
      omega
  | h2 a b =>
      have ha : a < 256 := h a (by simp)
      have hb : b < 256 := h b (by simp)
      have h1lt : a / 4 < 64 := by omega
      have h2lt : (a % 4) * 16 + b / 16 < 64 := by omega
      have h3lt : (b % 16) * 4 < 64 := by omega
      simp only [base64EncodeList, base64DecodeList]
      rw [if_neg (sextetChar_ne_pad _ h3lt)]
      simp only [if_true]
      rw [charSextet_sextetChar _ h1lt, charSextet_sextetChar _ h2lt,
        charSextet_sextetChar _ h3lt]
      simp only [List.cons.injEq, and_true]
      omega
  | h3 a b c rest ih =>
      have ha : a < 256 := h a (by simp)
      have hb : b < 256 := h b (by simp)
      have hc : c < 256 := h c (by simp)
      have hrest : ∀ x ∈ rest, x < 256 := by
        intro x hx
        exact h x (by simp [hx])
      have h1lt : a / 4 < 64 := by omega
      have h2lt : (a % 4) * 16 + b / 16 < 64 := by omega
      have h3lt : (b % 16) * 4 + c / 64 < 64 := by omega
      have h4lt : c % 64 < 64 := by omega
      simp only [base64EncodeList, base64DecodeList]
      rw [if_neg (sextetChar_ne_pad _ h3lt), if_neg (sextetChar_ne_pad _ h4lt)]
      rw [charSextet_sextetChar _ h1lt, charSextet_sextetChar _ h2lt,
        charSextet_sextetChar _ h3lt, charSextet_sextetChar _ h4lt]
      rw [ih hrest]
      simp only [List.cons.injEq, and_true]
      omega

/-- String-level roundtrip, as used on bridge payloads. -/
theorem base64DecodeStr_base64Encode (l : List Nat) (h : ∀ b ∈ l, b < 256) :
    base64DecodeStr (base64Encode l) = l :=
  base64_roundtrip l h

/-! ## Data model

Directories, filesystem events, file-like inputs and the host-provided
nondeterminism. -/

/-- Capacitor directory constants used by the service. -/
inductive Dir where
  | Data
  | External
deriving DecidableEq

/-- One host/bridge call issued by the service, in source order.  Only
filesystem-touching calls and the explicit UI yield are recorded;
URL.createObjectURL and console logging are not filesystem operations. -/
inductive FsOp where
  | writeFile (path : String) (data : String) (directory : Dir) (recursive : Bool)
  | appendFile (path : String) (data : String) (directory : Dir)
  | copy (src : String) (dst : String) (toDirectory : Dir) (directory : Option Dir)
  | getUri (path : String) (directory : Dir)
  | deleteFile (path : String) (directory : Dir)
  | uiYield
deriving DecidableEq

/-- Whether an event is a chunk-write call (writeFile or appendFile). -/
def FsOp.isChunkWrite : FsOp → Bool
  | FsOp.writeFile _ _ _ _ => true
  | FsOp.appendFile _ _ _ => true
  | _ => false

/-- Whether an event is a native copy call. -/
def FsOp.isCopy : FsOp → Bool
  | FsOp.copy _ _ _ _ => true
  | _ => false

/-- The base64 payload of a chunk-write call, if any. -/
def FsOp.chunkPayload : FsOp → Option String
  | FsOp.writeFile _ d _ _ => some d
  | FsOp.appendFile _ d _ => some d
  | _ => none

/-- The file-like input of saveFile: name, MIME type, content bytes, and
the optional fields Capacitor Android may inject (file.path,
file.webPath).  As for a DOM File, the size is the byte length. -/
structure JsFile where
  name : String
  mimeType : String
  bytes : List Nat
  path : Option String
  webPath : Option String

/-- The size of a file, as reported by the File object. -/
def JsFile.size (f : JsFile) : Nat := f.bytes.length

/-- The JS expression file.path OR file.webPath (line 82): the first
truthy value; none when both are missing or empty (falsy), in which case
the source takes the chunked branch. -/
def sourceUri (f : JsFile) : Option String :=
  match f.path with
  | some p => if p ≠ "" then some p else
      match f.webPath with
      | some w => if w ≠ "" then some w else none
      | none => none
  | none =>
      match f.webPath with
      | some w => if w ≠ "" then some w else none
      | none => none

/-- Host-provided nondeterminism for one saveFile call: the platform
capability probe, the outcomes of the two possible Filesystem.copy
attempts, Date.now, the fractional base-36 digits Math.random would
print, the platform URI resolver behind Filesystem.getUri, and the blob
URL minted by URL.createObjectURL. -/
structure Host where
  isNative : Bool
  copyOk1 : Bool
  copyOk2 : Bool
  now : Nat
  randDigits : List Nat
  resolveUri : String → String
  blobUrl : String

/-! ## Category and filename generation -/

/-- Category from the MIME type prefix (getCategory, lines 45-50). -/
def getCategory (mimeType : String) : String :=
  if mimeType.startsWith "video/" then "videos"
  else if mimeType.startsWith "audio/" then "audio"
  else if mimeType.startsWith "image/" then "images"
  else "documents"

/-- JS String.prototype.split with a single-character dot separator:
splits on every dot and keeps empty segments, so the result is always
nonempty. -/
def splitOnDot : List Char → List (List Char)
  | [] => [[]]
  | c :: t =>
      if c = '.' then [] :: splitOnDot t
      else
        match splitOnDot t with
        | [] => [[c]]
        | h :: t2 => (c :: h) :: t2

/-- The JS expression originalName.split(dot).pop() OR bin (line 58): the
last dot-separated segment, with bin substituted when that segment is the
empty string (name empty or ending in a dot). -/
def jsExtension (name : String) : String :=
  if (splitOnDot name.toList).getLastD [] = [] then "bin"
  else String.mk ((splitOnDot name.toList).getLastD [])

/-- The lowercase base-36 digit characters, in digit order. -/
def base36DigitChars : List Char := "0123456789abcdefghijklmnopqrstuvwxyz".toList

/-- The character of one base-36 digit. -/
def base36Digit (n : Nat) : Char := base36DigitChars.getD n '0'

/-- The string Math.random().toString(36) produces, modelled from the
printed fractional digit list: the digits of zero-point-something in base
36, or just the single digit zero when the value is zero (empty digit
list). -/
def randomBase36String (digits : List Nat) : String :=
  if digits = [] then "0" else "0." ++ String.mk (digits.map base36Digit)

/-- JS String.prototype.substring with fixed bounds, clamped to the
string length. -/
def jsSubstring (s : String) (a b : Nat) : String :=
  String.mk ((s.toList.drop a).take (b - a))

/-- The random filename component: Math.random().toString(36).substring(2, 8)
(line 57). -/
def randomPart (digits : List Nat) : String :=
  jsSubstring (randomBase36String digits) 2 8

/-- Unique filename generation (generateFilename, lines 55-60):
timestamp, underscore, random part, dot, extension. -/
def generateFilename (timestamp : Nat) (randDigits : List Nat)
    (originalName : String) : String :=
  toString timestamp ++ "_" ++ randomPart randDigits ++ "." ++ jsExtension originalName

/-- The destination path computed by saveFile (line 79). -/
def savePath (now : Nat) (randDigits : List Nat) (f : JsFile) : String :=
  "aurora-files/" ++ getCategory f.mimeType ++ "/" ++
    generateFilename now randDigits f.name

/-! ## The chunked write loop (saveFileChunked, lines 127-156) -/

/-- One iteration state of the while loop: the not-yet-written suffix of
the file and the isFirstChunk flag.  Every iteration slices off up to one
chunk, base64-encodes it, issues writeFile (first chunk, recursive
directory creation) or appendFile (later chunks), then awaits a
zero-duration setTimeout, recorded as a uiYield event. -/
def saveFileChunkedLoop (isFirst : Bool) (path : String) (remaining : List Nat) :
    List FsOp :=
  if h : remaining = [] then []
  else
    (if isFirst then
        FsOp.writeFile path (base64Encode (remaining.take chunkSize)) Dir.Data true
      else
        FsOp.appendFile path (base64Encode (remaining.take chunkSize)) Dir.Data)
    :: FsOp.uiYield
    :: saveFileChunkedLoop false path (remaining.drop chunkSize)
termination_by remaining.length
decreasing_by
  have h1 : 0 < remaining.length := List.length_pos.mpr h
  have h2 : 0 < chunkSize := by decide
  simp only [List.length_drop]
  omega

/-- The trace of host calls issued by saveFileChunked for a file with the
given content bytes. -/
def saveFileChunked (path : String) (bytes : List Nat) : List FsOp :=
  saveFileChunkedLoop true path bytes

/-! ## saveFile (lines 66-121) -/

/-- The result record returned by saveFile. -/
structure SaveFileResult where
  uri : String
  size : Nat
  mimeType : String
deriving DecidableEq

/-- The saveFile operation: produces the outcome (or the propagated
error) together with the trace of host calls, in issue order.  The
non-native branch returns a blob URL and touches no filesystem.  With a
truthy source locator the native copy is attempted with an explicit
source-resolution directory; on failure it is retried once without that
parameter; if the retry also fails the error propagates (the outer catch
logs and rethrows).  Without a source locator the chunked write runs.
Successful branches then resolve the destination path through
Filesystem.getUri. -/
def saveFile (h : Host) (f : JsFile) : Except Unit SaveFileResult × List FsOp :=
  if h.isNative = false then
    (Except.ok ⟨h.blobUrl, f.size, f.mimeType⟩, [])
  else
    let path := savePath h.now h.randDigits f
    match sourceUri f with
    | some src =>
        let firstCopy := FsOp.copy src path Dir.Data (some Dir.External)
        if h.copyOk1 then
          (Except.ok ⟨h.resolveUri path, f.size, f.mimeType⟩,
            [firstCopy, FsOp.getUri path Dir.Data])
        else
          let retryCopy := FsOp.copy src path Dir.Data none
          if h.copyOk2 then
            (Except.ok ⟨h.resolveUri path, f.size, f.mimeType⟩,
              [firstCopy, retryCopy, FsOp.getUri path Dir.Data])
          else
            (Except.error (), [firstCopy, retryCopy])
    | none =>
        (Except.ok ⟨h.resolveUri path, f.size, f.mimeType⟩,
          saveFileChunked path f.bytes ++ [FsOp.getUri path Dir.Data])

/-! ## shouldUseNativeStorage (lines 176-178) -/

/-- Size-based routing policy: native capability AND size at or above the
threshold. -/
def shouldUseNativeStorage (isNative : Bool) (fileSize : Nat) : Bool :=
  isNative && decide (fileSize ≥ FILE_SIZE_THRESHOLD)

/-! ## deleteFile (lines 183-205) -/

/-- Leftmost suffix of l at which pat begins, if any. -/
def firstSuffixFrom (pat : List Char) : List Char → Option (List Char)
  | [] => if pat.isPrefixOf ([] : List Char) then some [] else none
  | c :: t =>
      if pat.isPrefixOf (c :: t) then some (c :: t)
      else firstSuffixFrom pat t

/-- The JS regex match uri.match(aurora-files slash dot-plus) (line 195):
the leftmost occurrence of the literal aurora-files/ followed by at least
one character, matched greedily to the end of the string.  URIs are
assumed newline-free, so dot matches every following character. -/
def auroraMatch (uri : String) : Option String :=
  match firstSuffixFrom "aurora-files/".toList uri.toList with
  | some l => if "aurora-files/".length < l.length then some (String.mk l) else none
  | none => none

/-- The deleteFile operation.  Non-native mode revokes a blob URL (not a
filesystem call) and returns.  Native mode extracts the managed-subtree
path from the URI and issues a native delete only on a match; the whole
attempt sits in a try/catch whose handler only logs, so a failing native
delete (outcome given by the deleteOk oracle) never surfaces. -/
def deleteFileOp (isNative : Bool) (deleteOk : String → Bool) (uri : String) :
    Except Unit Unit × List FsOp :=
  if isNative = false then
    (Except.ok (), [])
  else
    match auroraMatch uri with
    | some m =>
        let attempt : Except Unit Unit :=
          if deleteOk m then Except.ok () else Except.error ()
        (match attempt with
          | Except.ok _ => Except.ok ()
          | Except.error _ => Except.ok (), [FsOp.deleteFile m Dir.Data])
    | none => (Except.ok (), [])

/-! ## convertFileSrc (lines 210-215) -/

/-- URI to web-usable URL conversion: the platform bridge conversion in
native mode, the identity otherwise. -/
def convertFileSrc (isNative : Bool) (bridgeConvert : String → String)
    (uri : String) : String :=
  if isNative = false then uri else bridgeConvert uri

/-! ## getNativeStorageStats (lines 220-260) -/

/-- The readdir and stat views the native filesystem presents during one
scan: an error models a throwing bridge call (missing directory,
concurrently deleted entry). -/
structure NativeFs where
  readdirNames : String → Except Unit (List String)
  statSize : String → Except Unit Nat

/-- The four fixed category directories (line 229). -/
def categories : List String := ["videos", "audio", "images", "documents"]

/-- The body of the per-entry stat loop (lines 240-250): an entry whose
stat succeeds adds its size to the running total; an entry whose stat
fails is skipped (the inner catch swallows the error). -/
def statStep (fs : NativeFs) (cat : String) (s : Nat) (n : String) : Nat :=
  match fs.statSize ("aurora-files/" ++ cat ++ "/" ++ n) with
  | Except.ok st => s + st
  | Except.error _ => s

/-- The body of the per-category loop (lines 230-254): a readdir failure
skips the category (the per-category catch swallows the error); on
success the full listing length is added to the count — before any stat
call — and the stat loop then accumulates the sizes. -/
def scanStep (fs : NativeFs) (acc : Nat × Nat) (cat : String) : Nat × Nat :=
  match fs.readdirNames ("aurora-files/" ++ cat) with
  | Except.error _ => acc
  | Except.ok files =>
      (acc.1 + files.length, files.foldl (statStep fs cat) acc.2)

/-- The storage statistics scan: fold the per-category step over the four
fixed categories.  The function is total: no error propagates. -/
def getNativeStorageStats (isNative : Bool) (fs : NativeFs) : Nat × Nat :=
  if isNative = false then (0, 0)
  else categories.foldl (scanStep fs) (0, 0)

/-! ## Lemmas about the chunked write loop -/

theorem saveFileChunkedLoop_nil (b : Bool) (p : String) :
    saveFileChunkedLoop b p [] = [] := by
  rw [saveFileChunkedLoop]
  simp

theorem saveFileChunkedLoop_cons (b : Bool) (p : String) (l : List Nat)
    (h : l ≠ []) :
    saveFileChunkedLoop b p l =
      (if b then
          FsOp.writeFile p (base64Encode (l.take chunkSize)) Dir.Data true
        else
          FsOp.appendFile p (base64Encode (l.take chunkSize)) Dir.Data)
      :: FsOp.uiYield
      :: saveFileChunkedLoop false p (l.drop chunkSize) := by
  rw [saveFileChunkedLoop]
  simp [h]

/-- Induction principle following the one-chunk-at-a-time recursion of the
chunked write loop. -/
theorem chunkInduction {P : List Nat → Prop} (hnil : P [])
    (hcons : ∀ l, l ≠ [] → P (l.drop chunkSize) → P l) (l : List Nat) : P l := by
  have key : ∀ n, ∀ l : List Nat, l.length ≤ n → P l := by
    intro n
    induction n with
    | zero =>
        intro l hl
        have hz : l = [] := List.length_eq_zero.mp (Nat.le_zero.mp hl)
        rw [hz]
        exact hnil
    | succ n ih =>
        intro l hl
        rcases eq_or_ne l [] with hz | hne
        · rw [hz]; exact hnil
        · refine hcons l hne (ih _ ?_)
          have h1 : 0 < l.length := List.length_pos.mpr hne
          have h2 : 0 < chunkSize := by decide
          simp only [List.length_drop]
          omega
  exact key l.length l le_rfl

/-- The chunk-write calls of the loop: the head write (create for the
first chunk, append otherwise) followed by the chunk-write calls for the
rest, the yield being filtered away. -/
theorem chunkWrites_cons (b : Bool) (p : String) (l : List Nat) (h : l ≠ []) :
    (saveFileChunkedLoop b p l).filter (fun op => op.isChunkWrite) =
      (if b then
          FsOp.writeFile p (base64Encode (l.take chunkSize)) Dir.Data true
        else
          FsOp.appendFile p (base64Encode (l.take chunkSize)) Dir.Data)
      :: (saveFileChunkedLoop false p (l.drop chunkSize)).filter
          (fun op => op.isChunkWrite) := by
  rw [saveFileChunkedLoop_cons b p l h]
  cases b <;> simp [FsOp.isChunkWrite, List.filter_cons]

/-- The number of chunk-write calls is the number of ceiling-division
chunks of the byte length. -/
theorem chunkWrites_length (l : List Nat) :
    ∀ b p, ((saveFileChunkedLoop b p l).filter (fun op => op.isChunkWrite)).length
      = (l.length + chunkSize - 1) / chunkSize := by
  induction l using chunkInduction with
  | hnil =>
      intro b p
      rw [saveFileChunkedLoop_nil]
      decide
  | hcons l hne ih =>
      intro b p
      rw [chunkWrites_cons b p l hne]
      simp only [List.length_cons, ih false p, List.length_drop]
      have h1 : 0 < l.length := List.length_pos.mpr hne
      have h2 : chunkSize = 1048576 := by norm_num [chunkSize]
      rw [h2]
      omega

/-- Every chunk-write call of a loop started past the first chunk is an
append. -/
theorem chunkWrites_false_append (l : List Nat) :
    ∀ p, ∀ op ∈ (saveFileChunkedLoop false p l).filter (fun op => op.isChunkWrite),
      ∃ d, op = FsOp.appendFile p d Dir.Data := by
  induction l using chunkInduction with
  | hnil =>
      intro p op hop
      rw [saveFileChunkedLoop_nil] at hop
      simp at hop
  | hcons l hne ih =>
      intro p op hop
      rw [chunkWrites_cons false p l hne, if_neg (by decide)] at hop
      simp only [List.mem_cons] at hop
      rcases hop with hop | hop
      · exact ⟨base64Encode (l.take chunkSize), hop⟩
      · exact ih p op hop

/-- No call of the chunked write loop is a native copy. -/
theorem chunkLoop_no_copy (l : List Nat) :
    ∀ b p, ∀ op ∈ saveFileChunkedLoop b p l, op.isCopy = false := by
  induction l using chunkInduction with
  | hnil =>
      intro b p op hop
      rw [saveFileChunkedLoop_nil] at hop
      simp at hop
  | hcons l hne ih =>
      intro b p op hop
      rw [saveFileChunkedLoop_cons b p l hne] at hop
      simp only [List.mem_cons] at hop
      rcases hop with hop | hop | hop
      · cases b
        · rw [if_neg (by decide)] at hop; rw [hop]; rfl
        · rw [if_pos rfl] at hop; rw [hop]; rfl
      · rw [hop]; rfl
      · exact ih false p op hop

/-- Concatenating the decoded payloads of the chunk-write calls, in call
order, yields back the input bytes. -/
theorem chunkWrites_reassemble (l : List Nat) :
    ∀ b p, (∀ x ∈ l, x < 256) →
      ((((saveFileChunkedLoop b p l).filter (fun op => op.isChunkWrite)).filterMap
          FsOp.chunkPayload).map base64DecodeStr).flatten = l := by
  induction l using chunkInduction with
  | hnil =>
      intro b p _
      rw [saveFileChunkedLoop_nil]
      rfl
  | hcons l hne ih =>
      intro b p hl
      rw [chunkWrites_cons b p l hne]
      have hpay : (if b then
          FsOp.writeFile p (base64Encode (l.take chunkSize)) Dir.Data true
        else
          FsOp.appendFile p (base64Encode (l.take chunkSize)) Dir.Data).chunkPayload
          = some (base64Encode (l.take chunkSize)) := by
        cases b <;> rfl
      rw [List.filterMap_cons_some hpay]
      simp only [List.map_cons, List.flatten_cons]
      have htake : ∀ x ∈ l.take chunkSize, x < 256 := fun x hx =>
        hl x (List.take_subset chunkSize l hx)
      have hdrop : ∀ x ∈ l.drop chunkSize, x < 256 := fun x hx =>
        hl x (List.drop_subset chunkSize l hx)
      rw [base64DecodeStr_base64Encode (l.take chunkSize) htake,
        ih false p hdrop, List.take_append_drop]

/-- Claim C1: for a nonempty file saved through the chunked write path
with 1 MiB chunks, exactly ceil(size / chunkSize) chunk-write calls
occur; the first is a create-style writeFile with recursive directory creation,
all later ones are appendFile calls in trace order, and concatenating the
base64-decoded payloads in call order reproduces the original bytes. -/
theorem C1_chunk_protocol (path : String) (bytes : List Nat) (hne : bytes ≠ [])
    (hbytes : ∀ b ∈ bytes, b < 256) :
    ((saveFileChunked path bytes).filter (fun op => op.isChunkWrite)).length
        = (bytes.length + chunkSize - 1) / chunkSize
    ∧ ((saveFileChunked path bytes).filter (fun op => op.isChunkWrite))[0]?
        = some (FsOp.writeFile path (base64Encode (bytes.take chunkSize)) Dir.Data true)
    ∧ (∀ op ∈ ((saveFileChunked path bytes).filter
          (fun op => op.isChunkWrite)).drop 1,
        ∃ d, op = FsOp.appendFile path d Dir.Data)
    ∧ ((((saveFileChunked path bytes).filter (fun op => op.isChunkWrite)).filterMap
          FsOp.chunkPayload).map base64DecodeStr).flatten = bytes := by
  refine ⟨chunkWrites_length bytes true path, ?_, ?_, chunkWrites_reassemble bytes true path hbytes⟩
  · rw [saveFileChunked, chunkWrites_cons true path bytes hne]
    simp
  · intro op hop
    rw [saveFileChunked, chunkWrites_cons true path bytes hne] at hop
    simp only [List.drop_succ_cons, List.drop_zero] at hop
    exact chunkWrites_false_append (bytes.drop chunkSize) path op hop

/-- Witness for C1 at a concrete two-byte file. -/
theorem C1_chunk_protocol_witness :
    ([72, 105] : List Nat) ≠ []
    ∧ ((saveFileChunked "aurora-files/videos/f.mp4" [72, 105]).filter
          (fun op => op.isChunkWrite)).length
        = (([72, 105] : List Nat).length + chunkSize - 1) / chunkSize := by
  refine ⟨by decide, (C1_chunk_protocol "aurora-files/videos/f.mp4" [72, 105]
    (by decide) (by decide)).1⟩

/-- Every chunk-write call of the loop is immediately followed by a
uiYield event. -/
theorem chunkLoop_yield_after (l : List Nat) :
    ∀ b p i, ((saveFileChunkedLoop b p l)[i]?.map FsOp.isChunkWrite) = some true →
      (saveFileChunkedLoop b p l)[i + 1]? = some FsOp.uiYield := by
  induction l using chunkInduction with
  | hnil =>
      intro b p i hi
      rw [saveFileChunkedLoop_nil] at hi
      simp at hi
  | hcons l hne ih =>
      intro b p i hi
      rw [saveFileChunkedLoop_cons b p l hne] at hi ⊢
      match i with
      | 0 => simp
      | 1 =>
          exfalso
          simp [FsOp.isChunkWrite] at hi
      | n + 2 =>
          simp only [List.getElem?_cons_succ] at hi ⊢
          exact ih false p n hi

/-- Claim C7: during a chunked write, a uiYield event separates every
pair of chunk-write calls: between any two chunk-write calls of the trace
there is a yield back to the host scheduler. -/
theorem C7_yield_between_chunks (path : String) (bytes : List Nat) (i j : Nat)
    (hij : i < j)
    (hi : ((saveFileChunked path bytes)[i]?.map FsOp.isChunkWrite) = some true)
    (hj : ((saveFileChunked path bytes)[j]?.map FsOp.isChunkWrite) = some true) :
    ∃ k, i < k ∧ k < j ∧ (saveFileChunked path bytes)[k]? = some FsOp.uiYield := by
  have hy : (saveFileChunked path bytes)[i + 1]? = some FsOp.uiYield :=
    chunkLoop_yield_after bytes true path i hi
  refine ⟨i + 1, Nat.lt_succ_self i, ?_, hy⟩
  rcases Nat.lt_or_ge (i + 1) j with hlt | hge
  · exact hlt
  · exfalso
    have hj1 : j = i + 1 := Nat.le_antisymm hge (Nat.succ_le_of_lt hij)
    rw [hj1, hy] at hj
    simp [FsOp.isChunkWrite] at hj

/-- Witness for C7 on a concrete file one byte longer than one chunk, so
that its chunked write issues two chunk-write calls. -/
theorem C7_yield_between_chunks_witness :
    ((saveFileChunked "aurora-files/videos/f.mp4"
        (List.replicate (chunkSize + 1) 0))[0]?.map FsOp.isChunkWrite = some true)
    ∧ ((saveFileChunked "aurora-files/videos/f.mp4"
        (List.replicate (chunkSize + 1) 0))[2]?.map FsOp.isChunkWrite = some true)
    ∧ ∃ k, 0 < k ∧ k < 2 ∧ (saveFileChunked "aurora-files/videos/f.mp4"
        (List.replicate (chunkSize + 1) 0))[k]? = some FsOp.uiYield := by
  have hne1 : (List.replicate (chunkSize + 1) (0 : Nat)) ≠ [] := by
    simp [List.replicate_succ]
  have hdrop1 : (List.replicate (chunkSize + 1) (0 : Nat)).drop chunkSize = [0] := by
    rw [List.replicate_succ' chunkSize (0 : Nat)]
    exact List.drop_left' (List.length_replicate chunkSize 0)
  have hexp : saveFileChunked "aurora-files/videos/f.mp4"
      (List.replicate (chunkSize + 1) 0) =
      FsOp.writeFile "aurora-files/videos/f.mp4"
          (base64Encode ((List.replicate (chunkSize + 1) 0).take chunkSize))
          Dir.Data true
        :: FsOp.uiYield
        :: FsOp.appendFile "aurora-files/videos/f.mp4"
            (base64Encode (([0] : List Nat).take chunkSize)) Dir.Data
        :: FsOp.uiYield
        :: [] := by
    rw [saveFileChunked, saveFileChunkedLoop_cons true _ _ hne1, hdrop1,
      saveFileChunkedLoop_cons false _ [0] (by decide), if_pos rfl,
      if_neg (by decide)]
    have hd2 : ([0] : List Nat).drop chunkSize = [] := by
      apply List.eq_nil_of_length_eq_zero
      simp only [List.length_drop, List.length_cons, List.length_nil]
      decide
    rw [hd2, saveFileChunkedLoop_nil]
  have hi : ((saveFileChunked "aurora-files/videos/f.mp4"
      (List.replicate (chunkSize + 1) 0))[0]?.map FsOp.isChunkWrite = some true) := by
    rw [hexp]; rfl
  have hj : ((saveFileChunked "aurora-files/videos/f.mp4"
      (List.replicate (chunkSize + 1) 0))[2]?.map FsOp.isChunkWrite = some true) := by
    rw [hexp]; rfl
  exact ⟨hi, hj, C7_yield_between_chunks "aurora-files/videos/f.mp4"
    (List.replicate (chunkSize + 1) 0) 0 2 (by decide) hi hj⟩

/-! ## Claims about saveFile strategy selection -/

/-- Claim C2: saveFile picks exactly one of three strategies, selected
only by native capability and the presence of a truthy source locator
and never by size: no capability gives the ephemeral blob handle with an
empty filesystem trace; capability with a locator gives the native copy
with no chunk writes; capability without a locator gives the chunked
write with no copy; and with capability the native save is attempted even
for sizes below the 1 MiB threshold. -/
theorem C2_strategy_selection (h : Host) (f : JsFile) :
    (h.isNative = false →
      saveFile h f = (Except.ok ⟨h.blobUrl, f.size, f.mimeType⟩, []))
    ∧ (∀ src, h.isNative = true → sourceUri f = some src →
        (∀ op ∈ (saveFile h f).2, op.isChunkWrite = false)
        ∧ (saveFile h f).2[0]? = some (FsOp.copy src
            (savePath h.now h.randDigits f) Dir.Data (some Dir.External)))
    ∧ (h.isNative = true → sourceUri f = none →
        saveFile h f =
          (Except.ok ⟨h.resolveUri (savePath h.now h.randDigits f), f.size, f.mimeType⟩,
            saveFileChunked (savePath h.now h.randDigits f) f.bytes
              ++ [FsOp.getUri (savePath h.now h.randDigits f) Dir.Data])
        ∧ (∀ op ∈ (saveFile h f).2, op.isCopy = false))
    ∧ (h.isNative = true → f.size < FILE_SIZE_THRESHOLD →
        (saveFile h f).2 ≠ []) := by
  refine ⟨?_, ?_, ?_, ?_⟩
  · intro hn
    simp [saveFile, hn]
  · intro src hn hs
    cases hc1 : h.copyOk1 <;> cases hc2 : h.copyOk2 <;>
      simp [saveFile, hn, hs, hc1, hc2, FsOp.isChunkWrite]
  · intro hn hs
    refine ⟨by simp [saveFile, hn, hs], ?_⟩
    intro op hop
    simp only [saveFile, hn, hs, if_neg (by decide : ¬(true = false)),
      List.mem_append, List.mem_singleton] at hop
    rcases hop with hop | hop
    · exact chunkLoop_no_copy f.bytes true _ op hop
    · rw [hop]; rfl
  · intro hn _
    cases hsrc : sourceUri f with
    | none => simp [saveFile, hn, hsrc]
    | some src =>
        cases hc1 : h.copyOk1 <;> cases hc2 : h.copyOk2 <;>
          simp [saveFile, hn, hsrc, hc1, hc2]

/-- Claim C3: on the native-copy strategy, a failing first copy is
retried exactly once, without the explicit source-resolution directory
parameter; a failing retry propagates the error with no chunked-write
fallback; a successful first copy is never retried. -/
theorem C3_copy_retry (h : Host) (f : JsFile) (src : String)
    (hn : h.isNative = true) (hs : sourceUri f = some src) :
    (h.copyOk1 = true →
      saveFile h f =
        (Except.ok ⟨h.resolveUri (savePath h.now h.randDigits f), f.size, f.mimeType⟩,
          [FsOp.copy src (savePath h.now h.randDigits f) Dir.Data (some Dir.External),
           FsOp.getUri (savePath h.now h.randDigits f) Dir.Data]))
    ∧ (h.copyOk1 = false → h.copyOk2 = true →
      saveFile h f =
        (Except.ok ⟨h.resolveUri (savePath h.now h.randDigits f), f.size, f.mimeType⟩,
          [FsOp.copy src (savePath h.now h.randDigits f) Dir.Data (some Dir.External),
           FsOp.copy src (savePath h.now h.randDigits f) Dir.Data none,
           FsOp.getUri (savePath h.now h.randDigits f) Dir.Data]))
    ∧ (h.copyOk1 = false → h.copyOk2 = false →
      saveFile h f =
        (Except.error (),
          [FsOp.copy src (savePath h.now h.randDigits f) Dir.Data (some Dir.External),
           FsOp.copy src (savePath h.now h.randDigits f) Dir.Data none])) := by
  refine ⟨?_, ?_, ?_⟩
  · intro hc1
    simp [saveFile, hn, hs, hc1]
  · intro hc1 hc2
    simp [saveFile, hn, hs, hc1, hc2]
  · intro hc1 hc2
    simp [saveFile, hn, hs, hc1, hc2]

/-- Claim C10: with native capability, no source locator and a zero-byte
file, the chunk loop issues no writeFile or appendFile call, yet the
getUri lookup on the computed path still happens and the returned
reference carries size zero. -/
theorem C10_zero_byte_save (h : Host) (f : JsFile) (hn : h.isNative = true)
    (hs : sourceUri f = none) (hz : f.bytes = []) :
    saveFile h f =
      (Except.ok ⟨h.resolveUri (savePath h.now h.randDigits f), 0, f.mimeType⟩,
        [FsOp.getUri (savePath h.now h.randDigits f) Dir.Data])
    ∧ (∀ op ∈ (saveFile h f).2, op.isChunkWrite = false) := by
  have htrace : saveFile h f =
      (Except.ok ⟨h.resolveUri (savePath h.now h.randDigits f), 0, f.mimeType⟩,
        [FsOp.getUri (savePath h.now h.randDigits f) Dir.Data]) := by
    simp [saveFile, hn, hs, saveFileChunked, hz, saveFileChunkedLoop_nil,
      JsFile.size]
  refine ⟨htrace, ?_⟩
  intro op hop
  rw [htrace] at hop
  simp only [List.mem_singleton] at hop
  rw [hop]
  rfl

/-! ## Claim about deleteFile -/

/-- Claim C6: deleteFile never surfaces an error, for any URI, any native
capability and any underlying delete outcome (hence also on a second
delete of the same reference); a URI not containing the managed
aurora-files subtree produces no delete call, and the non-native branch
never touches the filesystem. -/
theorem C6_delete_idempotent (isNative : Bool) (deleteOk : String → Bool)
    (uri : String) :
    (deleteFileOp isNative deleteOk uri).1 = Except.ok ()
    ∧ (isNative = true → auroraMatch uri = none →
        (deleteFileOp isNative deleteOk uri).2 = [])
    ∧ (isNative = false → (deleteFileOp isNative deleteOk uri).2 = []) := by
  refine ⟨?_, ?_, ?_⟩
  · cases hn : isNative
    · simp [deleteFileOp]
    · cases hm : auroraMatch uri with
      | none => simp [deleteFileOp, hm]
      | some m =>
          cases hd : deleteOk m <;> simp [deleteFileOp, hm, hd]
  · intro hn hm
    simp [deleteFileOp, hn, hm]
  · intro hn
    simp [deleteFileOp, hn]

/-- Witness for C6 at a blob URI outside the managed subtree, with an
always-failing native delete. -/
theorem C6_delete_idempotent_witness :
    (deleteFileOp true (fun _ => false) "blob:demo-handle").1 = Except.ok ()
    ∧ (deleteFileOp true (fun _ => false) "blob:demo-handle").2 = []
    ∧ (deleteFileOp false (fun _ => false) "blob:demo-handle").2 = [] :=
  ⟨(C6_delete_idempotent true (fun _ => false) "blob:demo-handle").1,
   (C6_delete_idempotent true (fun _ => false) "blob:demo-handle").2.1 rfl (by decide),
   (C6_delete_idempotent false (fun _ => false) "blob:demo-handle").2.2 rfl⟩

/-! ## Claims about shouldUseNativeStorage and convertFileSrc -/

/-- Claim C8: shouldUseNativeStorage holds exactly when native capability
is present and the size is at least 1 MiB. -/
theorem C8_threshold_routing (isNative : Bool) (fileSize : Nat) :
    shouldUseNativeStorage isNative fileSize = true ↔
      isNative = true ∧ 1 * 1024 * 1024 ≤ fileSize := by
  simp [shouldUseNativeStorage, FILE_SIZE_THRESHOLD]

/-- Claim C9: without native capability, convertFileSrc is the identity
on every input string, whatever the bridge conversion would do. -/
theorem C9_convert_identity (bridgeConvert : String → String) (uri : String) :
    convertFileSrc false bridgeConvert uri = uri := rfl

/-! ## Concrete fixtures for the saveFile witnesses -/

/-- A non-native host. -/
def exHostWeb : Host :=
  ⟨false, true, true, 1700000000000, [1, 2, 3, 4, 5, 6],
    fun p => "file:///data/user/0/app/" ++ p, "blob:demo-handle"⟩

/-- A native host whose first copy attempt succeeds. -/
def exHostNative : Host :=
  ⟨true, true, true, 1700000000000, [1, 2, 3, 4, 5, 6],
    fun p => "file:///data/user/0/app/" ++ p, "blob:demo-handle"⟩

/-- A native host whose first copy attempt fails and whose retry
succeeds. -/
def exHostRetry : Host :=
  ⟨true, false, true, 1700000000000, [1, 2, 3, 4, 5, 6],
    fun p => "file:///data/user/0/app/" ++ p, "blob:demo-handle"⟩

/-- A native host on which both copy attempts fail. -/
def exHostFail : Host :=
  ⟨true, false, false, 1700000000000, [1, 2, 3, 4, 5, 6],
    fun p => "file:///data/user/0/app/" ++ p, "blob:demo-handle"⟩

/-- A small video file with no native source locator. -/
def exFileNoSrc : JsFile := ⟨"clip.mp4", "video/mp4", [72, 105], none, none⟩

/-- A small video file with a native source locator. -/
def exFileSrc : JsFile :=
  ⟨"clip.mp4", "video/mp4", [72, 105], some "content://media/1", none⟩

/-- A zero-byte file with no native source locator. -/
def exFileEmpty : JsFile := ⟨"clip.mp4", "video/mp4", [], none, none⟩

/-- Witness for C2 at concrete hosts and files covering all four
conjuncts. -/
theorem C2_strategy_selection_witness :
    saveFile exHostWeb exFileNoSrc =
      (Except.ok ⟨exHostWeb.blobUrl, exFileNoSrc.size, exFileNoSrc.mimeType⟩, [])
    ∧ ((∀ op ∈ (saveFile exHostNative exFileSrc).2, op.isChunkWrite = false)
        ∧ (saveFile exHostNative exFileSrc).2[0]? = some (FsOp.copy "content://media/1"
            (savePath exHostNative.now exHostNative.randDigits exFileSrc)
            Dir.Data (some Dir.External)))
    ∧ (saveFile exHostNative exFileNoSrc =
          (Except.ok ⟨exHostNative.resolveUri
              (savePath exHostNative.now exHostNative.randDigits exFileNoSrc),
            exFileNoSrc.size, exFileNoSrc.mimeType⟩,
            saveFileChunked
                (savePath exHostNative.now exHostNative.randDigits exFileNoSrc)
                exFileNoSrc.bytes
              ++ [FsOp.getUri
                  (savePath exHostNative.now exHostNative.randDigits exFileNoSrc)
                  Dir.Data])
        ∧ (∀ op ∈ (saveFile exHostNative exFileNoSrc).2, op.isCopy = false))
    ∧ (saveFile exHostNative exFileNoSrc).2 ≠ [] :=
  ⟨(C2_strategy_selection exHostWeb exFileNoSrc).1 rfl,
   (C2_strategy_selection exHostNative exFileSrc).2.1 "content://media/1" rfl (by decide),
   (C2_strategy_selection exHostNative exFileNoSrc).2.2.1 rfl (by decide),
   (C2_strategy_selection exHostNative exFileNoSrc).2.2.2 rfl (by decide)⟩

/-- Witness for C3 at concrete hosts covering the three copy outcomes. -/
theorem C3_copy_retry_witness :
    saveFile exHostNative exFileSrc =
      (Except.ok ⟨exHostNative.resolveUri
          (savePath exHostNative.now exHostNative.randDigits exFileSrc),
        exFileSrc.size, exFileSrc.mimeType⟩,
        [FsOp.copy "content://media/1"
            (savePath exHostNative.now exHostNative.randDigits exFileSrc)
            Dir.Data (some Dir.External),
         FsOp.getUri (savePath exHostNative.now exHostNative.randDigits exFileSrc)
            Dir.Data])
    ∧ saveFile exHostRetry exFileSrc =
      (Except.ok ⟨exHostRetry.resolveUri
          (savePath exHostRetry.now exHostRetry.randDigits exFileSrc),
        exFileSrc.size, exFileSrc.mimeType⟩,
        [FsOp.copy "content://media/1"
            (savePath exHostRetry.now exHostRetry.randDigits exFileSrc)
            Dir.Data (some Dir.External),
         FsOp.copy "content://media/1"
            (savePath exHostRetry.now exHostRetry.randDigits exFileSrc)
            Dir.Data none,
         FsOp.getUri (savePath exHostRetry.now exHostRetry.randDigits exFileSrc)
            Dir.Data])
    ∧ saveFile exHostFail exFileSrc =
      (Except.error (),
        [FsOp.copy "content://media/1"
            (savePath exHostFail.now exHostFail.randDigits exFileSrc)
            Dir.Data (some Dir.External),
         FsOp.copy "content://media/1"
            (savePath exHostFail.now exHostFail.randDigits exFileSrc)
            Dir.Data none]) :=
  ⟨(C3_copy_retry exHostNative exFileSrc "content://media/1" rfl (by decide)).1 rfl,
   (C3_copy_retry exHostRetry exFileSrc "content://media/1" rfl (by decide)).2.1 rfl rfl,
   (C3_copy_retry exHostFail exFileSrc "content://media/1" rfl (by decide)).2.2 rfl rfl⟩

/-- Witness for C10 at a concrete zero-byte file. -/
theorem C10_zero_byte_save_witness :
    saveFile exHostNative exFileEmpty =
      (Except.ok ⟨exHostNative.resolveUri
          (savePath exHostNative.now exHostNative.randDigits exFileEmpty),
        0, exFileEmpty.mimeType⟩,
        [FsOp.getUri (savePath exHostNative.now exHostNative.randDigits exFileEmpty)
          Dir.Data])
    ∧ (∀ op ∈ (saveFile exHostNative exFileEmpty).2, op.isChunkWrite = false) :=
  C10_zero_byte_save exHostNative exFileEmpty rfl (by decide) rfl

/-! ## Claim C4: the statistics scan -/

/-- A scan view with two listed video entries of which only the first can
be statted, and no other category directories. -/
def exScanFs : NativeFs :=
  ⟨fun p => if p = "aurora-files/videos" then Except.ok ["a.mp4", "b.mp4"]
      else Except.error (),
   fun p => if p = "aurora-files/videos/a.mp4" then Except.ok 5
      else Except.error ()⟩

/-- Counterexample to claim C4 as stated: with K = 2 listed entries of
which one fails to stat, the scan returns count 2 — the full listing
length — not K - 1 = 1; only the size skips the failing entry. -/
theorem C4_counterexample :
    getNativeStorageStats true exScanFs = (2, 5)
    ∧ getNativeStorageStats true exScanFs ≠ (2 - 1, 5) := by
  constructor
  · decide
  · decide

/-- A successful stat adds the entry size. -/
theorem statStep_ok (fs : NativeFs) (cat : String) (s : Nat) (n : String) (v : Nat)
    (h : fs.statSize ("aurora-files/" ++ cat ++ "/" ++ n) = Except.ok v) :
    statStep fs cat s n = s + v := by
  unfold statStep
  rw [h]

/-- A failing stat leaves the running total unchanged. -/
theorem statStep_err (fs : NativeFs) (cat : String) (s : Nat) (n : String)
    (h : fs.statSize ("aurora-files/" ++ cat ++ "/" ++ n) = Except.error ()) :
    statStep fs cat s n = s := by
  unfold statStep
  rw [h]

/-- A successful readdir adds the full listing length to the count and
runs the stat loop over the listing. -/
theorem scanStep_ok (fs : NativeFs) (cat : String) (acc : Nat × Nat)
    (files : List String)
    (h : fs.readdirNames ("aurora-files/" ++ cat) = Except.ok files) :
    scanStep fs acc cat
      = (acc.1 + files.length, files.foldl (statStep fs cat) acc.2) := by
  unfold scanStep
  rw [h]

/-- A failing readdir leaves the accumulator unchanged. -/
theorem scanStep_err (fs : NativeFs) (cat : String) (acc : Nat × Nat)
    (h : fs.readdirNames ("aurora-files/" ++ cat) = Except.error ()) :
    scanStep fs acc cat = acc := by
  unfold scanStep
  rw [h]

/-- The stat fold over a listing all of whose entries stat successfully
adds the sum of their sizes. -/
theorem statFoldAll (fs : NativeFs) (cat : String) (sz : String → Nat) :
    ∀ (l : List String) (acc : Nat),
      (∀ e ∈ l, fs.statSize ("aurora-files/" ++ cat ++ "/" ++ e) = Except.ok (sz e)) →
      l.foldl (statStep fs cat) acc = acc + (l.map sz).sum := by
  intro l
  induction l with
  | nil =>
      intro acc _
      simp
  | cons e t ih =>
      intro acc hgood
      simp only [List.foldl_cons]
      rw [statStep_ok fs cat acc e (sz e) (hgood e (List.mem_cons_self e t))]
      rw [ih (acc + sz e) (fun x hx => hgood x (List.mem_cons_of_mem e hx))]
      rw [List.map_cons, List.sum_cons]
      omega

/-- The stat fold over a listing with one failing entry adds exactly the
sizes of the entries that stat successfully, skipping every occurrence of
the failing entry. -/
theorem statFoldBad (fs : NativeFs) (cat : String) (bad : String) (sz : String → Nat) :
    ∀ (l : List String) (acc : Nat),
      fs.statSize ("aurora-files/" ++ cat ++ "/" ++ bad) = Except.error () →
      (∀ e ∈ l, e ≠ bad →
          fs.statSize ("aurora-files/" ++ cat ++ "/" ++ e) = Except.ok (sz e)) →
      l.foldl (statStep fs cat) acc
        = acc + ((l.filter (fun e => e != bad)).map sz).sum := by
  intro l
  induction l with
  | nil =>
      intro acc _ _
      simp
  | cons e t ih =>
      intro acc hbad hgood
      simp only [List.foldl_cons]
      rcases eq_or_ne e bad with he | he
      · rw [he, statStep_err fs cat acc bad hbad]
        rw [ih acc hbad (fun x hx hne => hgood x (List.mem_cons_of_mem e hx) hne)]
        have hf : (bad :: t).filter (fun x => x != bad) = t.filter (fun x => x != bad) := by
          rw [List.filter_cons]
          simp
        rw [hf]
      · rw [statStep_ok fs cat acc e (sz e) (hgood e (List.mem_cons_self e t) he)]
        rw [ih (acc + sz e) hbad (fun x hx hne => hgood x (List.mem_cons_of_mem e hx) hne)]
        have hf : (e :: t).filter (fun x => x != bad) = e :: t.filter (fun x => x != bad) := by
          rw [List.filter_cons]
          simp [he]
        rw [hf, List.map_cons, List.sum_cons]
        omega

/-- The category fold over any list of categories, each either missing
(readdir fails) or listed, with one distinguished entry whose stat fails
and every other listed entry statting successfully: the count accumulates
the full listing lengths and the size accumulates the sizes of the
successfully statted entries. -/
theorem scanFold (fs : NativeFs) (ok : String → Bool) (els : String → List String)
    (badCat bad : String) (sz : String → String → Nat)
    (hbad : fs.statSize ("aurora-files/" ++ badCat ++ "/" ++ bad) = Except.error ()) :
    ∀ (cs : List String) (acc : Nat × Nat),
      (∀ c ∈ cs, fs.readdirNames ("aurora-files/" ++ c)
          = if ok c then Except.ok (els c) else Except.error ()) →
      (∀ c ∈ cs, ∀ e ∈ els c, (c ≠ badCat ∨ e ≠ bad) →
          fs.statSize ("aurora-files/" ++ c ++ "/" ++ e) = Except.ok (sz c e)) →
      cs.foldl (scanStep fs) acc
        = (acc.1 + (cs.map (fun c => if ok c then (els c).length else 0)).sum,
           acc.2 + (cs.map (fun c => if ok c then
               (((els c).filter (fun e => c != badCat || e != bad)).map (sz c)).sum
             else 0)).sum) := by
  intro cs
  induction cs with
  | nil =>
      intro acc _ _
      simp
  | cons c cs ih =>
      intro acc hread hstat
      have hrc := hread c (List.mem_cons_self c cs)
      have hread2 : ∀ x ∈ cs, fs.readdirNames ("aurora-files/" ++ x)
          = if ok x then Except.ok (els x) else Except.error () :=
        fun x hx => hread x (List.mem_cons_of_mem c hx)
      have hstat2 : ∀ x ∈ cs, ∀ e ∈ els x, (x ≠ badCat ∨ e ≠ bad) →
          fs.statSize ("aurora-files/" ++ x ++ "/" ++ e) = Except.ok (sz x e) :=
        fun x hx => hstat x (List.mem_cons_of_mem c hx)
      simp only [List.foldl_cons, List.map_cons, List.sum_cons]
      cases hok : ok c with
      | false =>
          rw [hok] at hrc
          simp only [Bool.false_eq_true, if_false] at hrc
          rw [scanStep_err fs c acc hrc, ih acc hread2 hstat2]
          simp [hok]
      | true =>
          rw [hok] at hrc
          simp only [if_true] at hrc
          rw [scanStep_ok fs c acc (els c) hrc]
          by_cases hbc : c = badCat
          · have hb2 : fs.statSize ("aurora-files/" ++ c ++ "/" ++ bad)
                = Except.error () := by
              rw [hbc]
              exact hbad
            have hg2 : ∀ e ∈ els c, e ≠ bad →
                fs.statSize ("aurora-files/" ++ c ++ "/" ++ e) = Except.ok (sz c e) :=
              fun e he hne => hstat c (List.mem_cons_self c cs) e he (Or.inr hne)
            rw [statFoldBad fs c bad (sz c) (els c) acc.2 hb2 hg2]
            rw [ih _ hread2 hstat2]
            have hpred : ((els c).filter (fun e => c != badCat || e != bad))
                = (els c).filter (fun e => e != bad) := by
              have hfun : (fun e => c != badCat || e != bad)
                  = (fun e : String => e != bad) := by
                funext e
                rw [hbc]
                simp
              rw [hfun]
            rw [hpred]
            simp [hok, Nat.add_assoc]
          · have hg2 : ∀ e ∈ els c,
                fs.statSize ("aurora-files/" ++ c ++ "/" ++ e) = Except.ok (sz c e) :=
              fun e he => hstat c (List.mem_cons_self c cs) e he (Or.inl hbc)
            rw [statFoldAll fs c (sz c) (els c) acc.2 hg2]
            rw [ih _ hread2 hstat2]
            have hpred : ((els c).filter (fun e => c != badCat || e != bad)) = els c := by
              apply List.filter_eq_self.mpr
              intro e _
              have h1 : (c != badCat) = true := bne_iff_ne.mpr hbc
              rw [h1, Bool.true_or]
            rw [hpred]
            simp [hok, Nat.add_assoc]

/-- Claim C4, amended: over any storage tree — each of the four category
directories either missing or holding an arbitrary (possibly empty)
listing — in which exactly one distinguished listed entry fails to stat
and every other listed entry stats successfully, the scan returns count
equal to the total number of listed entries (the full listing lengths,
stat failures notwithstanding) and size equal to the sum of the sizes of
the successfully statted entries; missing category directories contribute
nothing and no error propagates (the scan is a total function). -/
theorem C4_scan_resilience (fs : NativeFs) (ok : String → Bool)
    (els : String → List String) (badCat bad : String) (sz : String → String → Nat)
    (hread : ∀ c ∈ categories, fs.readdirNames ("aurora-files/" ++ c)
        = if ok c then Except.ok (els c) else Except.error ())
    (hbad : fs.statSize ("aurora-files/" ++ badCat ++ "/" ++ bad) = Except.error ())
    (hgood : ∀ c ∈ categories, ∀ e ∈ els c, (c ≠ badCat ∨ e ≠ bad) →
        fs.statSize ("aurora-files/" ++ c ++ "/" ++ e) = Except.ok (sz c e)) :
    getNativeStorageStats true fs
      = ((categories.map (fun c => if ok c then (els c).length else 0)).sum,
         (categories.map (fun c => if ok c then
             (((els c).filter (fun e => c != badCat || e != bad)).map (sz c)).sum
           else 0)).sum) := by
  unfold getNativeStorageStats
  rw [if_neg (by decide : ¬(true = false))]
  rw [scanFold fs ok els badCat bad sz hbad categories (0, 0) hread hgood]
  simp

/-- A scan view distributing entries over several categories: two video
entries of which only the first can be statted, a present but empty audio
directory, one statting image entry, and a missing documents
directory. -/
def exScanFs2 : NativeFs :=
  ⟨fun p => if p = "aurora-files/videos" then Except.ok ["a.mp4", "b.mp4"]
      else if p = "aurora-files/audio" then Except.ok []
      else if p = "aurora-files/images" then Except.ok ["c.png"]
      else Except.error (),
   fun p => if p = "aurora-files/videos/a.mp4" then Except.ok 5
      else if p = "aurora-files/images/c.png" then Except.ok 7
      else Except.error ()⟩

/-- The per-category readdir success pattern of exScanFs2. -/
def exOk : String → Bool := fun c => c != "documents"

/-- The per-category listings of exScanFs2. -/
def exEls : String → List String := fun c =>
  if c = "videos" then ["a.mp4", "b.mp4"]
  else if c = "images" then ["c.png"]
  else []

/-- The sizes of the statting entries of exScanFs2. -/
def exSz : String → String → Nat := fun _ e => if e = "a.mp4" then 5 else 7

/-- Witness for C4 on a concrete tree with entries spread over several
categories, one failing stat, an empty listing and a missing
directory. -/
theorem C4_scan_resilience_witness :
    getNativeStorageStats true exScanFs2
      = ((categories.map (fun c => if exOk c then (exEls c).length else 0)).sum,
         (categories.map (fun c => if exOk c then
             (((exEls c).filter (fun e => c != "videos" || e != "b.mp4")).map
               (exSz c)).sum
           else 0)).sum) := by
  refine C4_scan_resilience exScanFs2 exOk exEls "videos" "b.mp4" exSz ?_ rfl ?_
  · intro c hc
    simp only [categories] at hc
    fin_cases hc <;> rfl
  · intro c hc e he hor
    simp only [categories] at hc
    fin_cases hc
    · have he2 : e ∈ ["a.mp4", "b.mp4"] := he
      rcases List.mem_cons.mp he2 with he3 | he4
      · subst he3
        rfl
      · rcases List.mem_cons.mp he4 with he5 | he6
        · subst he5
          rcases hor with h | h
          · exact absurd rfl h
          · exact absurd rfl h
        · exact absurd he6 (List.not_mem_nil e)
    · exact absurd (show e ∈ ([] : List String) from he) (List.not_mem_nil e)
    · have he2 : e ∈ ["c.png"] := he
      rcases List.mem_cons.mp he2 with he3 | he4
      · subst he3
        rfl
      · exact absurd he4 (List.not_mem_nil e)
    · exact absurd (show e ∈ ([] : List String) from he) (List.not_mem_nil e)

/-! ## Claim C5: the shape of generated paths -/

/-- Whether a character belongs to the lowercase base-36 alphabet. -/
def isBase36LowerChar (c : Char) : Bool := base36DigitChars.contains c

/-- Modelled from the claim wording (refinement comparison only): the
extension the claim asserts — the extension of the original name, or bin
when the name has no extension (no dot). -/
def claimedExtension (name : String) : String :=
  if name.toList.contains '.' then String.mk ((splitOnDot name.toList).getLastD [])
  else "bin"

/-- Modelled from the claim wording (refinement comparison only): the
asserted filename shape — a 13-digit timestamp, an underscore, exactly
six lowercase base-36 characters, a dot, then the claimed extension. -/
def isClaimedFilename (name fn : String) : Bool :=
  let cs := fn.toList
  let ext := (claimedExtension name).toList
  (cs.length == 13 + 1 + 6 + 1 + ext.length)
    && (cs.take 13).all (fun c => c.isDigit)
    && (cs.getD 13 ' ' == '_')
    && ((cs.drop 14).take 6).all isBase36LowerChar
    && (cs.getD 20 ' ' == '.')
    && (cs.drop 21 == ext)

/-- Counterexample to claim C5 as stated: with the random draw whose
base-36 rendering is a single digit (0.5 renders as the digit i) and an
original name without a dot, the generated filename has a one-character
random part and reuses the whole original name as its extension instead
of bin, so it does not match the claimed shape. -/
theorem C5_counterexample :
    generateFilename 1700000000000 [18] "README" = "1700000000000_i.README"
    ∧ isClaimedFilename "README" (generateFilename 1700000000000 [18] "README")
        = false := by
  constructor
  · decide
  · decide

/-- Splitting a dot-free character list yields the whole list as the one
segment. -/
theorem splitOnDot_no_dot (cs : List Char) (h : '.' ∉ cs) : splitOnDot cs = [cs] := by
  induction cs with
  | nil => rfl
  | cons c t ih =>
      have hc : ¬ c = '.' := by
        intro hc
        exact h (by rw [hc]; exact List.mem_cons_self '.' t)
      have ht : '.' ∉ t := fun hm => h (List.mem_cons_of_mem c hm)
      simp only [splitOnDot, if_neg hc, ih ht]

/-- Rebuilding a string from its character list is the identity. -/
theorem stringMk_toList (s : String) : String.mk s.toList = s := rfl

/-- Base-36 digits of values below 36 are lowercase base-36 characters. -/
theorem base36Digit_mem : ∀ n, n < 36 → isBase36LowerChar (base36Digit n) = true := by
  decide

/-- Lower bound on the length of the decimal digit list produced by the
core of Nat.repr: a value of at least 10 to the e needs more than e
digits. -/
theorem toDigitsCore_length_lower (f : Nat) :
    ∀ (n e : Nat) (ds : List Char), n < f → 10 ^ e ≤ n →
      e + 1 + ds.length ≤ (Nat.toDigitsCore 10 f n ds).length := by
  induction f with
  | zero =>
      intro n e ds hn _
      exact absurd hn (Nat.not_lt_zero n)
  | succ f ih =>
      intro n e ds hn he
      simp only [Nat.toDigitsCore]
      by_cases h0 : n / 10 = 0
      · rw [if_pos h0]
        have hlt : n < 10 := by omega
        have he0 : e = 0 := by
          by_contra hne
          have h1 : 1 ≤ e := Nat.one_le_iff_ne_zero.mpr hne
          have h2 : 10 ^ 1 ≤ 10 ^ e := Nat.pow_le_pow_right (by decide) h1
          have h3 : 10 ≤ n := le_trans (by omega) he
          omega
        rw [he0]
        simp only [List.length_cons]
        omega
      · rw [if_neg h0]
        have h10 : 10 ≤ n := by omega
        have hn2 : n / 10 < f := by omega
        cases e with
        | zero =>
            have h1 : 10 ^ 0 ≤ n / 10 := by
              have h2 : 1 ≤ n / 10 := Nat.one_le_iff_ne_zero.mpr h0
              simpa using h2
            have h3 := ih (n / 10) 0 (Nat.digitChar (n % 10) :: ds) hn2 h1
            simp only [List.length_cons] at h3 ⊢
            omega
        | succ e2 =>
            have h1 : 10 ^ e2 ≤ n / 10 := by
              have hp : 10 ^ e2 * 10 ≤ n := by
                have hps : 10 ^ (e2 + 1) = 10 ^ e2 * 10 := pow_succ 10 e2
                omega
              exact (Nat.le_div_iff_mul_le (by decide)).mpr hp
            have h3 := ih (n / 10) e2 (Nat.digitChar (n % 10) :: ds) hn2 h1
            simp only [List.length_cons] at h3 ⊢
            omega

/-- Lower bound on the length of the decimal representation of a natural
number. -/
theorem repr_length_lower (e n : Nat) (h : 10 ^ e ≤ n) :
    e + 1 ≤ (Nat.repr n).length := by
  have h1 : n < n + 1 := Nat.lt_succ_self n
  have h2 := toDigitsCore_length_lower (n + 1) n e [] h1 h
  simpa [Nat.repr, Nat.toDigits, String.length, List.asString] using h2

/-- Claim C5, amended: every native save path is
aurora-files/category/filename with the category one of the four fixed
MIME-derived directories, and the filename is the decimal Date.now
timestamp — exactly 13 digits for every timestamp in the current era,
that is at least 10 to the 12 and below 10 to the 13 — an underscore, the
random part, a dot and the extension, where the random part is characters
two to eight of the base-36 rendering of the random draw, of length the
minimum of six and the number of rendered fractional digits (exactly six
lowercase base-36 characters whenever at least six digits are rendered,
fewer otherwise) and always drawn from the lowercase base-36 alphabet,
and the extension is the last dot-separated segment of the original name
(the whole name when it has no dot), with bin used exactly when that
segment is empty. -/
theorem C5_path_shape (t : Nat) (d : List Nat) (f : JsFile)
    (hd : ∀ x ∈ d, x < 36) :
    savePath t d f
        = "aurora-files/" ++ getCategory f.mimeType ++ "/" ++ generateFilename t d f.name
    ∧ (getCategory f.mimeType = "videos" ∨ getCategory f.mimeType = "audio"
        ∨ getCategory f.mimeType = "images" ∨ getCategory f.mimeType = "documents")
    ∧ generateFilename t d f.name
        = toString t ++ "_" ++ randomPart d ++ "." ++ jsExtension f.name
    ∧ (10 ^ 12 ≤ t → t < 10 ^ 13 → (toString t).length = 13)
    ∧ (randomPart d).length = min 6 d.length
    ∧ (randomPart d).toList.all isBase36LowerChar = true
    ∧ ((splitOnDot f.name.toList).getLastD [] = [] → jsExtension f.name = "bin")
    ∧ ((splitOnDot f.name.toList).getLastD [] ≠ [] →
        jsExtension f.name = String.mk ((splitOnDot f.name.toList).getLastD []))
    ∧ ('.' ∉ f.name.toList → f.name ≠ "" → jsExtension f.name = f.name) := by
  refine ⟨rfl, ?_, rfl, ?_, ?_, ?_, ?_, ?_, ?_⟩
  · rw [getCategory]
    split_ifs <;> simp
  · intro h1 h2
    show (Nat.repr t).length = 13
    exact Nat.le_antisymm (Nat.repr_length t 13 (by decide) h2)
      (repr_length_lower 12 t h1)
  · by_cases hne : d = []
    · rw [hne]
      decide
    · have hlist : (randomBase36String d).toList = '0' :: '.' :: d.map base36Digit := by
        rw [randomBase36String, if_neg hne]
        show ("0." ++ String.mk (d.map base36Digit)).data = _
        rw [String.data_append]
        rfl
      have hpart : randomPart d = String.mk ((d.map base36Digit).take 6) := by
        rw [randomPart, jsSubstring, hlist]
        rfl
      rw [hpart]
      show ((d.map base36Digit).take 6).length = min 6 d.length
      rw [List.length_take, List.length_map]
  · by_cases hne : d = []
    · rw [hne]
      decide
    · have hlist : (randomBase36String d).toList = '0' :: '.' :: d.map base36Digit := by
        rw [randomBase36String, if_neg hne]
        show ("0." ++ String.mk (d.map base36Digit)).data = _
        rw [String.data_append]
        rfl
      have hpart : randomPart d = String.mk ((d.map base36Digit).take 6) := by
        rw [randomPart, jsSubstring, hlist]
        rfl
      rw [hpart]
      show ((d.map base36Digit).take 6).all isBase36LowerChar = true
      rw [List.all_eq_true]
      intro c hc
      have hc2 : c ∈ d.map base36Digit := List.take_subset 6 _ hc
      rcases List.mem_map.mp hc2 with ⟨x, hx, hcx⟩
      rw [← hcx]
      exact base36Digit_mem x (hd x hx)
  · intro hseg
    unfold jsExtension
    rw [if_pos hseg]
  · intro hseg
    unfold jsExtension
    rw [if_neg hseg]
  · intro hdot hne
    have hsplit : splitOnDot f.name.toList = [f.name.toList] :=
      splitOnDot_no_dot f.name.toList hdot
    have hne2 : f.name.toList ≠ [] := by
      intro hz
      apply hne
      rw [← stringMk_toList f.name, hz]
    have hlast : ([f.name.toList] : List (List Char)).getLastD [] = f.name.toList := rfl
    unfold jsExtension
    rw [hsplit, hlast, if_neg hne2]
    exact stringMk_toList f.name

/-- Witness for C5 at a concrete timestamp, random draw and video file. -/
theorem C5_path_shape_witness :
    (∀ x ∈ ([1, 2, 3, 4, 5, 6] : List Nat), x < 36)
    ∧ (toString 1700000000000).length = 13
    ∧ (randomPart [1, 2, 3, 4, 5, 6]).length = min 6 ([1, 2, 3, 4, 5, 6] : List Nat).length
    ∧ (randomPart [1, 2, 3, 4, 5, 6]).toList.all isBase36LowerChar = true
    ∧ savePath 1700000000000 [1, 2, 3, 4, 5, 6] exFileNoSrc
        = "aurora-files/" ++ getCategory exFileNoSrc.mimeType ++ "/"
          ++ generateFilename 1700000000000 [1, 2, 3, 4, 5, 6] exFileNoSrc.name := by
  have h := C5_path_shape 1700000000000 [1, 2, 3, 4, 5, 6] exFileNoSrc (by decide)
  exact ⟨by decide, h.2.2.2.1 (by decide) (by decide), h.2.2.2.2.1,
    h.2.2.2.2.2.1, h.1⟩

end AuroraFS
